import Mathlib

/-!
Verification of the Tixy event-collection / change-detection / alert-dispatch
pipeline against its natural-language specification.

The Lean definitions below are shallow embeddings of the Python source under
`core/api/`:

* `api/scrapers/ticketmaster_new.py` — `stable_checksum`, `build_windows`,
  `fetch_events_page`, `iter_all_events_windowed`.
* `api/management/commands/ticketmaster_resale.py` — `merge_tm_signals`,
  `check_ticketmaster_page_availability`, `_detect_resale`.
* `api/management/commands/scan_ticketmaster_pro.py` — `_send_email_with_retry`,
  the dedupe / notification loop of `Command.handle`.
* `api/management/commands/scan_paid_alerts.py` — the scan loop of
  `Command.handle` (no per-target exception handler).
* `api/management/commands/scan_ticketmaster_resale.py` — notification step of
  `Command.handle`.
* `api/management/commands/scrub_ticketmaster_new.py` — the
  `EventoPiattaforma` mapping update step of `Command.handle`.
* `api/models.py` — the `Notifica` record (note: `dedupe_key` carries only a
  non-unique index, no uniqueness constraint).

Machine integers do not occur (Python integers are unbounded); times are
modelled as `Int` seconds, money and sleep durations as `ℚ`.  External
effects (HTTP responses, thrown exceptions of `send_mail`, random jitter)
are passed in as explicit inputs so every function is pure and executable.
-/

namespace Tixy

/-! ## JSON values and `stable_checksum` (api/scrapers/ticketmaster_new.py)

The source stores arbitrary provider JSON.  `stable_checksum` is

```python
def stable_checksum(obj):
    s = json.dumps(obj, sort_keys=True, separators=(",", ":"), ensure_ascii=False)
    return hashlib.sha256(s.encode("utf-8")).hexdigest()   # hashlib imported inline

```

`json.dumps(..., sort_keys=True)` serialises every dict with its items in
sorted order (`sorted(dct.items())`, a lexicographic comparison on the
`(key, value)` pairs, which on a dict never reaches the values because keys
are unique).  SHA-256 is modelled as an arbitrary function of the serialised
string (`hash`): the ordering-invariance claim holds for every such function.
-/

/-- JSON values.  Numbers are modelled as integers (the payload fields the
claims touch are ids, counts and strings; the number representation is
irrelevant to key ordering). -/
inductive Json where
  | null
  | bool (b : Bool)
  | num (n : Int)
  | str (s : String)
  | arr (elements : List Json)
  | obj (fields : List (String × Json))

/-- JSON string escaping for the two characters that must always be escaped.
(Control-character escaping is orthogonal to every claim proved here.) -/
def escapeChar (c : Char) : String :=
  if c = '"' then "\\\"" else if c = '\\' then "\\\\" else String.singleton c

def escapeString (s : String) : String :=
  String.join (s.toList.map escapeChar)

def quoteJson (s : String) : String :=
  "\"" ++ escapeString s ++ "\""

/-- Order in which `sorted(dct.items())` arranges already-serialised fields:
lexicographic on the pair, i.e. by key and (for equal keys, which a dict
never has) by serialised value. -/
def pairLe (a b : String × String) : Prop :=
  a.1 < b.1 ∨ (a.1 = b.1 ∧ a.2 ≤ b.2)

instance : DecidableRel pairLe := fun a b => by
  unfold pairLe; infer_instance

instance : IsTotal (String × String) pairLe := by
  constructor
  intro a b
  rcases lt_trichotomy a.1 b.1 with h | h | h
  · exact Or.inl (Or.inl h)
  · rcases le_total a.2 b.2 with h2 | h2
    · exact Or.inl (Or.inr ⟨h, h2⟩)
    · exact Or.inr (Or.inr ⟨h.symm, h2⟩)
  · exact Or.inr (Or.inl h)

instance : IsTrans (String × String) pairLe := by
  constructor
  intro a b c hab hbc
  rcases hab with h1 | ⟨h1, h1'⟩
  · rcases hbc with h2 | ⟨h2, _⟩
    · exact Or.inl (h1.trans h2)
    · exact Or.inl (h2 ▸ h1)
  · rcases hbc with h2 | ⟨h2, h2'⟩
    · exact Or.inl (h1 ▸ h2)
    · exact Or.inr ⟨h1.trans h2, h1'.trans h2'⟩

instance : IsAntisymm (String × String) pairLe := by
  constructor
  intro a b hab hba
  rcases hab with h1 | ⟨h1, h1'⟩
  · rcases hba with h2 | ⟨h2, _⟩
    · exact absurd (h1.trans h2) (lt_irrefl _)
    · exact absurd h1 (h2 ▸ lt_irrefl _)
  · rcases hba with h2 | ⟨h2, h2'⟩
    · exact absurd h2 (h1 ▸ lt_irrefl _)
    · exact Prod.ext h1 (le_antisymm h1' h2')

/-- Sort serialised object fields the way `sorted(dct.items())` does. -/
def sortFields (fs : List (String × String)) : List (String × String) :=
  List.insertionSort pairLe fs

def renderField (p : String × String) : String :=
  quoteJson p.1 ++ ":" ++ p.2

def joinComma (xs : List String) : String :=
  String.intercalate "," xs

mutual

/-- Serialisation `json.dumps(obj, sort_keys=True, separators=(",", ":"), ensure_ascii=False)`. -/
def jsonSerialize : Json → String
  | .null => "null"
  | .bool true => "true"
  | .bool false => "false"
  | .num n => toString n
  | .str s => quoteJson s
  | .arr xs => "[" ++ joinComma (serializeElems xs) ++ "]"
  | .obj fs => "\x7b" ++ joinComma ((sortFields (serializeFields fs)).map renderField) ++ "\x7d"

def serializeElems : List Json → List String
  | [] => []
  | x :: xs => jsonSerialize x :: serializeElems xs

def serializeFields : List (String × Json) → List (String × String)
  | [] => []
  | (k, v) :: fs => (k, jsonSerialize v) :: serializeFields fs

end

/-- Model of `stable_checksum`, with SHA-256 abstracted as `hash`. -/
def stable_checksum (hash : String → String) (j : Json) : String :=
  hash (jsonSerialize j)

/-! ## `build_windows` (api/scrapers/ticketmaster_new.py)

```python
def build_windows(*, start_utc, end_utc, step_days=30):
    ...
    if end_utc <= start_utc:
        return []
    step = timedelta(days=step_days)
    out = []
    cur = start_utc
    while cur < end_utc:
        nxt = min(cur + step, end_utc)
        out.append(TMWindow(start=cur, end=nxt))
        cur = nxt
    return out
```

Datetimes are modelled as `Int` seconds since the epoch;
`timedelta(days=step_days)` is `86400 * step_days` seconds.  The Python
`while` loop terminates only when the step is positive (with
`step_days <= 0` and `start < end` it never advances); the Lean model guards
the loop on `0 < step`, which is forced by the claim's `step_days > 0`
hypothesis and does not change the function on that domain. -/

/-- A collection window.  The source field `end` is a Lean keyword and is
rendered `stop`. -/
structure TMWindow where
  start : Int
  stop : Int
deriving DecidableEq, Repr

def build_windows_loop (cur e step : Int) : List TMWindow :=
  if _h : cur < e ∧ 0 < step then
    let nxt := min (cur + step) e
    ⟨cur, nxt⟩ :: build_windows_loop nxt e step
  else []
termination_by (e - cur).toNat
decreasing_by
  omega

def build_windows (start_utc end_utc : Int) (step_days : Int) : List TMWindow :=
  if end_utc ≤ start_utc then []
  else build_windows_loop start_utc end_utc (86400 * step_days)

/-! ## Windowed collection with run-lifetime dedup
(`iter_all_events_windowed`, api/scrapers/ticketmaster_new.py)

```python
    seen_ids: set[str] = set()
    for w in windows:
        for e in iter_events_in_window(window=w, ...):
            eid = e.get("id")
            if not eid:
                continue
            if eid in seen_ids:
                continue
            seen_ids.add(eid)
            yield e
```

The events each window's pagination produces are an input (`windows`,
a list of per-window event lists); the claim is about the dedup layer.
`e.get("id")` is falsy when the key is absent (`none`) or the id is the
empty string. -/

/-- A raw provider event: its optional external id plus the rest of the
payload (opaque for dedup purposes). -/
structure TMEvent where
  id : Option String
  payload : Json

/-- Python falsiness of `e.get("id")`. -/
def TMEvent.idFalsy (e : TMEvent) : Bool :=
  match e.id with
  | none => true
  | some s => s = ""

/-- The inner `for e in iter_events_in_window(...)` body, threading the
`seen_ids` set (here a list). -/
def windowDedupStep (seen : List String) (yielded : List TMEvent) :
    List TMEvent → List String × List TMEvent
  | [] => (seen, yielded)
  | e :: es =>
    match e.id with
    | none => windowDedupStep seen yielded es
    | some eid =>
      if eid = "" then windowDedupStep seen yielded es
      else if eid ∈ seen then windowDedupStep seen yielded es
      else windowDedupStep (eid :: seen) (yielded ++ [e]) es

/-- The outer `for w in windows` loop. -/
def windowDedupRun (seen : List String) (yielded : List TMEvent) :
    List (List TMEvent) → List String × List TMEvent
  | [] => (seen, yielded)
  | w :: ws =>
    let (seen', yielded') := windowDedupStep seen yielded w
    windowDedupRun seen' yielded' ws

/-- Model of `iter_all_events_windowed`, restricted to its dedup layer: the full
sequence of events the generator yields, given what each window returned. -/
def iter_all_events_windowed (windows : List (List TMEvent)) : List TMEvent :=
  (windowDedupRun [] [] windows).2

/-! ## Availability signals and `merge_tm_signals`
(api/management/commands/ticketmaster_resale.py)

`Availability = Literal["available", "limited", "unavailable", "unknown"]`. -/

inductive Availability where
  | available
  | limited
  | unavailable
  | unknown
deriving DecidableEq, Repr

/-- Python `@dataclass class PriceResult` (ticketmaster_resale.py). -/
structure PriceResult where
  ok : Bool
  status_code : Option Nat
  availability : Availability
  min_price : Option ℚ
  max_price : Option ℚ
  currency : Option String
  reason : Option String
  raw : Option Json

/-- Python `@dataclass class HtmlResult` (ticketmaster_resale.py). -/
structure HtmlResult where
  ok : Bool
  availability : Availability
  is_resale : Bool
  status_code : Option Nat
  final_url : Option String
  reason : Option String
  sample : Option String := none
deriving DecidableEq

/-- Python `@dataclass class CombinedResult` (ticketmaster_resale.py).  The source
stores `asdict(html)` / `asdict(prices)`; the model keeps the structures. -/
structure CombinedResult where
  ok : Bool
  availability : Availability
  is_resale : Bool
  min_price : Option ℚ
  max_price : Option ℚ
  currency : Option String
  source : String
  reason : Option String
  html : Option HtmlResult
  prices : Option PriceResult

/-- Python `a or b` on the `Option String`-valued `reason` fields: `None` and
`""` are falsy. -/
def pyOrStr (a b : Option String) : Option String :=
  match a with
  | none => b
  | some s => if s = "" then b else some s

/-- Model of `merge_tm_signals(html, prices)` (ticketmaster_resale.py, lines 450-477). -/
def merge_tm_signals (html : HtmlResult) (prices : PriceResult) : CombinedResult :=
  let out : CombinedResult :=
    { ok := html.ok || prices.ok
      availability := .unknown
      is_resale := html.is_resale
      min_price := if prices.ok then prices.min_price else none
      max_price := if prices.ok then prices.max_price else none
      currency := if prices.ok then prices.currency else none
      source := "mixed"
      reason := pyOrStr html.reason prices.reason
      html := some html
      prices := some prices }
  if html.ok ∧ (html.availability = .available ∨ html.availability = .unavailable) then
    { out with availability := html.availability, source := "html" }
  else if prices.ok ∧ prices.availability ≠ .unknown then
    { out with availability := prices.availability, source := "mfxapi" }
  else if html.ok then
    { out with availability := html.availability, source := "html" }
  else
    { out with availability := .unknown, source := "mixed" }

/-- The spec's §4.4 precedence table, written from the spec's own words
(`source = "page" | "price" | "mixed"`); used to state that the code's
merger refines it.  In the code the page observation is labelled `"html"`
and the pricing observation `"mfxapi"`. -/
inductive MergeSource where
  | page
  | price
  | mixed
deriving DecidableEq, Repr

/-- Label the spec-side source tags with the strings the code emits. -/
def MergeSource.label : MergeSource → String
  | .page => "html"
  | .price => "mfxapi"
  | .mixed => "mixed"

/-- Spec §4.4 merge precedence, straight from the spec's words: (1) page ok and
definite → page; (2) price ok and non-unknown → price; (3) page ok at all →
page; (4) otherwise unknown/mixed. -/
def mergePrecedenceSpec (pageOk : Bool) (page : Availability)
    (priceOk : Bool) (price : Availability) : Availability × MergeSource :=
  if pageOk ∧ (page = .available ∨ page = .unavailable) then (page, .page)
  else if priceOk ∧ price ≠ .unknown then (price, .price)
  else if pageOk then (page, .page)
  else (.unknown, .mixed)

/-! ## Page heuristic: `check_ticketmaster_page_availability` and
`_detect_resale` (ticketmaster_resale.py)

The network is an input: `resp attempt` is what `session.get` did on the
given attempt (raised, or returned a status / final URL / body; the
`Retry-After` header is carried so that the model can show the code never
reads it).  `random.uniform(0.2, 0.8)` jitter values are the input `jitter`.
The result is paired with the trace of `time.sleep` durations. -/

/-- Outcome of one `session.get` / `requests.get` call. -/
inductive AttemptOutcome where
  | exc (msg : String)
  | resp (status : Nat) (retryAfter : Option Nat) (finalUrl : String) (body : String)

def AttemptOutcome.statusOf : AttemptOutcome → Option Nat
  | .exc _ => none
  | .resp s _ _ _ => some s

/-- Contiguous-substring test: Python `needle in hay`. -/
def leadsWith : List Char → List Char → Bool
  | [], _ => true
  | _ :: _, [] => false
  | c :: cs, d :: ds => c = d && leadsWith cs ds

def hasSubList (needle : List Char) : List Char → Bool
  | [] => needle.isEmpty
  | c :: t => leadsWith needle (c :: t) || hasSubList needle t

def strHasSub (hay needle : String) : Bool :=
  hasSubList needle.toList hay.toList

/-- Pattern step `\s*` then a literal, for the small regex scanner. -/
def dropWs (s : List Char) : List Char :=
  match s with
  | [] => []
  | c :: t => if c.isWhitespace then dropWs t else c :: t

def matchLit (lit s : List Char) : Option (List Char) :=
  if leadsWith lit s then some (s.drop lit.length) else none

/-- Pattern `\s*:\s*true` after the `isresale` key. -/
def matchColonTrue (s : List Char) : Bool :=
  match dropWs s with
  | ':' :: rest =>
    (matchLit "true".toList (dropWs rest)).isSome
  | _ => false

/-- Regex `re.search(r'"isresale"\s*:\s*true', text)`: the key in quotes. -/
def matchQuotedIsresale (s : List Char) : Bool :=
  match matchLit ('"' :: "isresale".toList ++ ['"']) s with
  | some rest => matchColonTrue rest
  | none => false

def isWordChar (c : Char) : Bool :=
  c.isAlphanum || c = '_'

/-- Regex `re.search(r"\bisresale\b\s*:\s*true", text)`: the trailing `\b` is
subsumed by `\s*:` (both whitespace and `:` are non-word characters). -/
def matchBareIsresale (prev : Option Char) (s : List Char) : Bool :=
  (match prev with
   | none => true
   | some c => !isWordChar c) &&
  (match matchLit "isresale".toList s with
   | some rest => matchColonTrue rest
   | none => false)

/-- Search `re.search`: try the pattern at every position. -/
def scanQuoted : List Char → Bool
  | [] => matchQuotedIsresale []
  | c :: t => matchQuotedIsresale (c :: t) || scanQuoted t

def scanBare (prev : Option Char) : List Char → Bool
  | [] => matchBareIsresale prev []
  | c :: t => matchBareIsresale prev (c :: t) || scanBare (some c)  t

/-- Model of `_detect_resale(text_lower)` (ticketmaster_resale.py, lines 314-322). -/
def detect_resale (text_lower : String) : Bool :=
  strHasSub text_lower "rivendita" || strHasSub text_lower "resale" ||
    scanQuoted text_lower.toList || scanBare none text_lower.toList

/-- Keyword list `_NEGATIVES` (ticketmaster_resale.py). -/
def tmNegatives : List String :=
  ["sold out", "esaurito", "non disponibile", "tickets not available",
   "no tickets available"]

/-- Keyword list `_POSITIVES` (ticketmaster_resale.py). -/
def tmPositives : List String :=
  ["acquista", "buy tickets", "aggiungi al carrello", "on sale", "in vendita",
   "rivendita", "resale"]

/-- Build the `HtmlResult` the success path produces from a 2xx/3xx body. -/
def htmlResultOfBody (status : Nat) (finalUrl body : String) : HtmlResult :=
  let text_lower := body.toLower
  let is_resale := detect_resale text_lower
  if tmNegatives.any (fun k => strHasSub text_lower k) then
    { ok := true, availability := .unavailable, is_resale := is_resale
      status_code := some status, final_url := some finalUrl
      reason := some "negative_keyword", sample := some (text_lower.take 220) }
  else if tmPositives.any (fun k => strHasSub text_lower k) then
    { ok := true, availability := .available, is_resale := is_resale
      status_code := some status, final_url := some finalUrl
      reason := some "positive_keyword", sample := some (text_lower.take 220) }
  else
    { ok := true, availability := .unknown, is_resale := is_resale
      status_code := some status, final_url := some finalUrl
      reason := some "no_strong_signals", sample := some (text_lower.take 220) }

/-- The retry loop of `check_ticketmaster_page_availability`
(ticketmaster_resale.py, lines 325-443).  `attempt` runs over
`range(max_retries + 1)`; `lastStatus` / `lastUrl` model the
`last_status` / `last_final_url` locals.  Returns the result together with
the list of `time.sleep` durations (each `2 ** attempt + jitter attempt`;
the `Retry-After` header of the response is never consulted). -/
def check_page_loop (resp : Nat → AttemptOutcome) (maxRetries : Nat)
    (jitter : Nat → ℚ) : Nat → Nat → Option Nat → Option String →
    HtmlResult × List ℚ
  | fuel + 1, attempt, lastStatus, lastUrl =>
    match resp attempt with
    | .exc msg =>
      if attempt < maxRetries then
        let w : ℚ := (2 : ℚ) ^ attempt + jitter attempt
        let (r, ws) := check_page_loop resp maxRetries jitter fuel (attempt + 1)
          lastStatus lastUrl
        (r, w :: ws)
      else
        ({ ok := false, availability := .unknown, is_resale := false
           status_code := lastStatus, final_url := lastUrl
           reason := some ("exception: " ++ msg), sample := none }, [])
    | .resp status _retryAfter finalUrl body =>
      if status = 404 then
        ({ ok := true, availability := .unknown, is_resale := false
           status_code := some 404, final_url := some finalUrl
           reason := some "page_404_invalid_url", sample := none }, [])
      else if status = 403 ∨ status = 429 ∨ (500 ≤ status ∧ status ≤ 599) then
        if attempt < maxRetries then
          let w : ℚ := (2 : ℚ) ^ attempt + jitter attempt
          let (r, ws) := check_page_loop resp maxRetries jitter fuel (attempt + 1)
            (some status) (some finalUrl)
          (r, w :: ws)
        else
          ({ ok := false, availability := .unknown, is_resale := false
             status_code := some status, final_url := some finalUrl
             reason := some ("HTTP " ++ toString status ++ " (blocked/rate/5xx)")
             sample := none }, [])
      else if 400 ≤ status then
        ({ ok := false, availability := .unknown, is_resale := false
           status_code := some status, final_url := some finalUrl
           reason := some ("HTTP " ++ toString status), sample := none }, [])
      else
        (htmlResultOfBody status finalUrl body, [])
  | 0, _attempt, lastStatus, lastUrl =>
    -- fuel exhausted = the `for` loop fell through: `unexpected_fallthrough`,
    -- dead in the source (every iteration returns or continues), kept for
    -- faithfulness.
    ({ ok := false, availability := .unknown, is_resale := false
       status_code := lastStatus, final_url := lastUrl
       reason := some "unexpected_fallthrough", sample := none }, [])

/-- Loop header `for attempt in range(max_retries + 1)`: the loop runs `max_retries + 1`
iterations (the fuel), `attempt` starting at 0. -/
def check_ticketmaster_page_availability (resp : Nat → AttemptOutcome)
    (maxRetries : Nat) (jitter : Nat → ℚ) : HtmlResult × List ℚ :=
  check_page_loop resp maxRetries jitter (maxRetries + 1) 0 none none

/-! ## Catalog fetcher: `fetch_events_page`
(api/scrapers/ticketmaster_new.py, lines 75-123)

```python
    for attempt in range(max_retries_429 + 1):
        r = requests.get(TM_BASE, params=params, timeout=timeout)
        if r.status_code == 429 and attempt < max_retries_429:
            retry_after = r.headers.get("Retry-After")
            sleep_s = int(retry_after) if (retry_after and retry_after.isdigit()) else (2 ** attempt)
            time.sleep(sleep_s)
            continue
        r.raise_for_status()
        if r.status_code == 400:      # dead: raise_for_status already raised
            raise TicketmasterError(...)
        return r.json()
    raise TicketmasterError("Too many 429 responses from Ticketmaster")
```

Exceptions of `requests.get` are *not* caught here and `raise_for_status`
raises on every status >= 400, so the model returns `Except`.  The sleep
trace records each wait: the numeric `Retry-After` when present, else
`2 ** attempt` (no cap, no jitter). -/

/-- Result of `fetch_events_page`: either the raised exception's message or
the parsed body, with the trace of `time.sleep` seconds and the number of
HTTP requests issued. -/
structure FetchPageRun where
  result : Except String String
  waits : List ℚ
  requests : Nat

def fetch_events_page_loop (resp : Nat → AttemptOutcome) (maxRetries429 : Nat) :
    Nat → Nat → FetchPageRun
  | fuel + 1, attempt =>
    match resp attempt with
    | .exc msg =>
      -- requests.get raised; nothing catches it in this function
      { result := .error msg, waits := [], requests := attempt + 1 }
    | .resp status retryAfter _ body =>
      if status = 429 ∧ attempt < maxRetries429 then
        let w : ℚ := match retryAfter with
          | some n => (n : ℚ)
          | none => (2 : ℚ) ^ attempt
        let rest := fetch_events_page_loop resp maxRetries429 fuel (attempt + 1)
        { result := rest.result, waits := w :: rest.waits
          requests := rest.requests }
      else if 400 ≤ status then
        -- r.raise_for_status()
        { result := .error ("HTTP " ++ toString status), waits := []
          requests := attempt + 1 }
      else
        { result := .ok body, waits := [], requests := attempt + 1 }
  | 0, attempt =>
    { result := .error "Too many 429 responses from Ticketmaster", waits := []
      requests := attempt }

/-- Loop header `for attempt in range(max_retries_429 + 1)`: `max_retries_429 + 1`
iterations of fuel, `attempt` from 0. -/
def fetch_events_page (resp : Nat → AttemptOutcome) (maxRetries429 : Nat) :
    FetchPageRun :=
  fetch_events_page_loop resp maxRetries429 (maxRetries429 + 1) 0

/-- Reference wait schedule of the catalog fetcher's 429-retry loop: the
numeric `Retry-After` when present, else `2 ** attempt`; no jitter, no cap. -/
def backoff429Waits (ra : Nat → Option Nat) (k : Nat) : List ℚ :=
  (List.range k).map (fun i =>
    match ra i with
    | some n => (n : ℚ)
    | none => (2 : ℚ) ^ i)

/-- Reference wait schedule of the page checker's blocked-retry loop:
`2 ** attempt + jitter`; no cap, `Retry-After` never consulted. -/
def pageBackoffWaits (jitter : Nat → ℚ) (k : Nat) : List ℚ :=
  (List.range k).map (fun i => (2 : ℚ) ^ i + jitter i)

/-! ## Mail send with retry and the notification dispatch step
(scan_ticketmaster_pro.py)

```python
def _send_email_with_retry(*, ..., max_retries, base_wait):
    last_err = ""
    for attempt in range(1, max_retries + 1):
        try:
            send_mail(...)
            return True, ""
        except Exception as e:
            last_err = str(e)
            wait = base_wait * attempt
            time.sleep(wait)
    return False, last_err
```

`sendOutcome attempt` tells whether `send_mail` succeeded (`none`) or threw
(`some message`) on the given 1-based attempt. -/

def send_email_with_retry_loop (sendOutcome : Nat → Option String)
    (baseWait : ℚ) : Nat → Nat → String → (Bool × String) × List ℚ
  | fuel + 1, attempt, _lastErr =>
    match sendOutcome attempt with
    | none => ((true, ""), [])
    | some msg =>
      let w := baseWait * attempt
      let (r, ws) :=
        send_email_with_retry_loop sendOutcome baseWait fuel (attempt + 1) msg
      (r, w :: ws)
  | 0, _attempt, lastErr => ((false, lastErr), [])

/-- Model of `_send_email_with_retry` (scan_ticketmaster_pro.py, lines 100-121):
`for attempt in range(1, max_retries + 1)` is `max_retries` iterations of
fuel with `attempt` starting at 1. -/
def send_email_with_retry (sendOutcome : Nat → Option String)
    (maxRetries : Nat) (baseWait : ℚ) : (Bool × String) × List ℚ :=
  send_email_with_retry_loop sendOutcome baseWait maxRetries 1 ""

/-- The `Notifica.status` choices (api/models.py: `[("SENT", ...), ("FAILED", ...)]`). -/
inductive NotificaStatus where
  | SENT
  | FAILED
deriving DecidableEq, Repr

/-- A `Notifica` row, reduced to the fields the dedupe logic reads.  In
`api/models.py` `dedupe_key` has an index but *no* uniqueness constraint. -/
structure Notifica where
  dedupe_key : String
  status : NotificaStatus
deriving DecidableEq, Repr

/-- Dedupe query `Notifica.objects.filter(dedupe_key=dk, status="SENT").exists()`. -/
def existsSent (store : List Notifica) (dk : String) : Bool :=
  store.any (fun n => n.dedupe_key = dk && n.status = .SENT)

/-- Number of SENT rows carrying a dedupe key. -/
def countSent (store : List Notifica) (dk : String) : Nat :=
  (store.filter (fun n => n.dedupe_key = dk && n.status = .SENT)).length

/-- The tail of scan_ticketmaster_pro.py `Command.handle` for one target that
reached the dedupe check (lines 266-330): skip when a SENT row with the key
exists; otherwise send with retry; create the SENT row only when the send
succeeded (on failure nothing is written, so the key can be retried in a
later run).  Returns the new store. -/
def proNotifyStep (store : List Notifica) (dk : String)
    (sendOutcome : Nat → Option String) (emailRetries : Nat) (emailWait : ℚ) :
    List Notifica :=
  if existsSent store dk then store
  else
    let ok := ((send_email_with_retry sendOutcome emailRetries emailWait).1).1
    if ok then store ++ [{ dedupe_key := dk, status := .SENT }]
    else store

/-- The notification step of scan_ticketmaster_resale.py `Command.handle`
(lines 237-282) for one monitoraggio of a found resale: dedupe on SENT rows,
single `send_mail` call (`sendOutcome = some msg` when it threw), then
*always* create a row — `SENT` on success, `FAILED` on exception. -/
def resaleNotifyStep (store : List Notifica) (dk : String)
    (sendOutcome : Option String) : List Notifica :=
  if existsSent store dk then store
  else
    let status : NotificaStatus := match sendOutcome with
      | none => .SENT
      | some _ => .FAILED
    store ++ [{ dedupe_key := dk, status := status }]

/-! ## Concurrent dedupe: the pro scanner's check / send / insert as separate
atomic actions (scan_ticketmaster_pro.py, lines 266-330)

In the source the SENT-existence check (line 268) runs *before* the email
send, and the `transaction.atomic()` block (line 322) wraps only the
`Notifica.objects.create` — the check is outside it, and `Notifica` has no
uniqueness constraint on `dedupe_key`.  Two workers scanning the same target
concurrently therefore interleave three separate atomic steps each:
read-check, external send, insert. -/

inductive WorkerPhase where
  | ready        -- about to run the dedupe query
  | passedCheck  -- dedupe query found no SENT row; about to send
  | sent         -- send_mail succeeded; about to create the Notifica row
  | done
deriving DecidableEq, Repr

structure Worker where
  key : String
  sendOk : Bool
  phase : WorkerPhase
deriving DecidableEq, Repr

/-- One atomic step of one worker against the shared store. -/
def workerStep (store : List Notifica) (w : Worker) : List Notifica × Worker :=
  match w.phase with
  | .ready =>
    if existsSent store w.key then (store, { w with phase := .done })
    else (store, { w with phase := .passedCheck })
  | .passedCheck =>
    if w.sendOk then (store, { w with phase := .sent })
    else (store, { w with phase := .done })
  | .sent =>
    (store ++ [{ dedupe_key := w.key, status := .SENT }], { w with phase := .done })
  | .done => (store, w)

/-- Run two workers under an explicit interleaving: `true` steps the first
worker, `false` the second. -/
def runTwoWorkers (store : List Notifica) (w₁ w₂ : Worker) :
    List Bool → List Notifica × Worker × Worker
  | [] => (store, w₁, w₂)
  | pick :: rest =>
    if pick then
      let (store', w₁') := workerStep store w₁
      runTwoWorkers store' w₁' w₂ rest
    else
      let (store', w₂') := workerStep store w₂
      runTwoWorkers store' w₁ w₂' rest

/-- One worker run to completion with no interleaving (a sequential run):
check, then send, then insert, atomically one after another. -/
def runWorkerSeq (store : List Notifica) (key : String) (sendOk : Bool) :
    List Notifica :=
  let (s1, w1) := workerStep store { key := key, sendOk := sendOk, phase := .ready }
  let (s2, w2) := workerStep s1 w1
  (workerStep s2 w2).1

/-! ## `EventoPiattaforma` mapping update
(scrub_ticketmaster_new.py, `Command.handle`, lines 241-274)

The whole per-record body runs inside one `transaction.atomic()` block; on
the changed branch `snapshot_raw`, `checksum_dati` and `ultima_scansione`
are saved in a single `save(update_fields=[...])`, and on the unchanged
branch only `ultima_scansione` (plus the auto-now `aggiornato_il`) is
saved. -/

/-- The fields of an `EventoPiattaforma` row this step touches. -/
structure Mapping where
  url : String
  snapshot_raw : Json
  checksum_dati : String
  ultima_scansione : Int

/-- The mapping branch of the scrub command for one ingested item `e`:
create when absent; touch only `ultima_scansione` when the stored checksum
equals `stable_checksum e`; otherwise write snapshot, checksum, url and
timestamp together. -/
def update_mapping (hash : String → String) (mapping : Option Mapping)
    (e : Json) (url : String) (now : Int) : Mapping :=
  let checksum := stable_checksum hash e
  match mapping with
  | none =>
    { url := url, snapshot_raw := e, checksum_dati := checksum
      ultima_scansione := now }
  | some m =>
    if m.checksum_dati = checksum then
      { m with ultima_scansione := now }
    else
      { m with
          url := if url = "" then m.url else url
          snapshot_raw := e
          checksum_dati := checksum
          ultima_scansione := now }

/-! ## Scan orchestrator loops (scan_ticketmaster_pro.py, scan_paid_alerts.py)

What one iteration does to its target is driven by the data store and the
network; the model takes it as an input per target: either the body runs
normally and lands in one of the command's counter buckets, or somewhere in
the body an exception is raised.

In scan_ticketmaster_pro.py the loop body after `counters["processed"] += 1`
is wrapped in `try: ... except Exception as ex:` which prints
`[FATAL-SKIP] monitoraggio={id} err={ex}` and continues — but increments no
counter.  In scan_paid_alerts.py there is no such per-target handler: an
exception propagates out of `handle` and the summary line is never printed.
(A concrete raising input in scan_paid_alerts.py: any target reaching the
fetch calls `check_ticketmaster_page_availability(url=..., session=tm_session)`,
but the scraper in api/scrapers/ticketmaster_availability.py accepts only
`(*, url, timeout)` — a guaranteed `TypeError`.) -/

/-- The counter buckets a normally-completing iteration of the pro scanner
lands in (scan_ticketmaster_pro.py, `counters` dict minus `processed`). -/
inductive ProBucket where
  | notified
  | skip_no_perf
  | skip_internal
  | skip_no_mapping
  | skip_not_avail
  | skip_dedup
  | tm_error
  | email_fail
  | no_email_pref
deriving DecidableEq, Repr

/-- What processing one target does, as observed at the orchestrator loop. -/
inductive TargetStep where
  | normal (bucket : ProBucket)
  | raises (msg : String)
deriving DecidableEq, Repr

/-- The pro scanner's `counters` dict. -/
structure ProCounters where
  processed : Nat := 0
  notified : Nat := 0
  skip_no_perf : Nat := 0
  skip_internal : Nat := 0
  skip_no_mapping : Nat := 0
  skip_not_avail : Nat := 0
  skip_dedup : Nat := 0
  tm_error : Nat := 0
  email_fail : Nat := 0
  no_email_pref : Nat := 0
deriving DecidableEq, Repr

def ProCounters.bump (c : ProCounters) : ProBucket → ProCounters
  | .notified => { c with notified := c.notified + 1 }
  | .skip_no_perf => { c with skip_no_perf := c.skip_no_perf + 1 }
  | .skip_internal => { c with skip_internal := c.skip_internal + 1 }
  | .skip_no_mapping => { c with skip_no_mapping := c.skip_no_mapping + 1 }
  | .skip_not_avail => { c with skip_not_avail := c.skip_not_avail + 1 }
  | .skip_dedup => { c with skip_dedup := c.skip_dedup + 1 }
  | .tm_error => { c with tm_error := c.tm_error + 1 }
  | .email_fail => { c with email_fail := c.email_fail + 1 }
  | .no_email_pref => { c with no_email_pref := c.no_email_pref + 1 }

def ProCounters.get (c : ProCounters) : ProBucket → Nat
  | .notified => c.notified
  | .skip_no_perf => c.skip_no_perf
  | .skip_internal => c.skip_internal
  | .skip_no_mapping => c.skip_no_mapping
  | .skip_not_avail => c.skip_not_avail
  | .skip_dedup => c.skip_dedup
  | .tm_error => c.tm_error
  | .email_fail => c.email_fail
  | .no_email_pref => c.no_email_pref

/-- The `[FATAL-SKIP]` line the pro scanner's catch-all prints. -/
def fatalSkipLine (id : Nat) (msg : String) : String :=
  "[FATAL-SKIP] monitoraggio=" ++ toString id ++ " err=" ++ msg

/-- The `for m in monitoraggi` loop of scan_ticketmaster_pro.py
`Command.handle` (lines 205-341): `processed` is bumped before the `try`,
the catch-all logs with the target id and continues without touching any
other counter. -/
def run_pro_loop (c : ProCounters) (log : List String) :
    List (Nat × TargetStep) → ProCounters × List String
  | [] => (c, log)
  | (id, step) :: rest =>
    let c := { c with processed := c.processed + 1 }
    match step with
    | .normal b => run_pro_loop (c.bump b) log rest
    | .raises msg => run_pro_loop c (log ++ [fatalSkipLine id msg]) rest

def run_pro (targets : List (Nat × TargetStep)) : ProCounters × List String :=
  run_pro_loop {} [] targets

/-- The `for m in monitoraggi` loop of scan_paid_alerts.py `Command.handle`
(lines 166-279): no per-target exception handler, so a raising target aborts
the run (`.error` with the offending target and message; the counters of the
partial run are lost with the stack frame and the summary never prints). -/
def run_paid_loop (c : ProCounters) :
    List (Nat × TargetStep) → Except (Nat × String) ProCounters
  | [] => .ok c
  | (id, step) :: rest =>
    let c := { c with processed := c.processed + 1 }
    match step with
    | .normal b => run_paid_loop (c.bump b) rest
    | .raises msg => .error (id, msg)

def run_paid (targets : List (Nat × TargetStep)) :
    Except (Nat × String) ProCounters :=
  run_paid_loop {} targets

lemma serializeFields_eq_map (fs : List (String × Json)) :
    serializeFields fs = fs.map (fun kv => (kv.1, jsonSerialize kv.2)) := by
  induction fs with
  | nil => rfl
  | cons kv fs ih => cases kv; simp [serializeFields, ih]

lemma sortFields_eq_of_perm {l₁ l₂ : List (String × String)} (h : l₁.Perm l₂) :
    sortFields l₁ = sortFields l₂ := by
  apply List.eq_of_perm_of_sorted (r := pairLe)
    (((List.perm_insertionSort pairLe l₁).trans h).trans
      (List.perm_insertionSort pairLe l₂).symm)
  · exact List.sorted_insertionSort pairLe l₁
  · exact List.sorted_insertionSort pairLe l₂

lemma htmlResultOfBody_ok (status : Nat) (finalUrl body : String) :
    (htmlResultOfBody status finalUrl body).ok = true := by
  unfold htmlResultOfBody
  dsimp only
  split_ifs <;> rfl

lemma check_page_loop_fail_no_resale (resp : Nat → AttemptOutcome)
    (maxR : Nat) (jitter : Nat → ℚ) :
    ∀ fuel attempt ls lu,
      (check_page_loop resp maxR jitter fuel attempt ls lu).1.ok = false →
      (check_page_loop resp maxR jitter fuel attempt ls lu).1.is_resale = false := by
  intro fuel
  induction fuel with
  | zero => intro attempt ls lu _; rfl
  | succ fuel ih =>
    intro attempt ls lu h
    rcases hr : resp attempt with msg | ⟨status, retryAfter, finalUrl, body⟩
    · by_cases hlt : attempt < maxR
      · simp only [check_page_loop, hr, if_pos hlt] at h ⊢
        exact ih (attempt + 1) ls lu h
      · simp only [check_page_loop, hr, if_neg hlt] at h ⊢
    · by_cases h404 : status = 404
      · simp only [check_page_loop, hr, if_pos h404] at h ⊢
      · by_cases hblock : status = 403 ∨ status = 429 ∨ (500 ≤ status ∧ status ≤ 599)
        · by_cases hlt : attempt < maxR
          · simp only [check_page_loop, hr, if_neg h404, if_pos hblock, if_pos hlt] at h ⊢
            exact ih (attempt + 1) (some status) (some finalUrl) h
          · simp only [check_page_loop, hr, if_neg h404, if_pos hblock, if_neg hlt] at h ⊢
        · by_cases h400 : 400 ≤ status
          · simp only [check_page_loop, hr, if_neg h404, if_neg hblock, if_pos h400] at h ⊢
          · simp only [check_page_loop, hr, if_neg h404, if_neg hblock, if_neg h400] at h
            rw [htmlResultOfBody_ok] at h
            cases h

lemma send_email_with_retry_loop_all_throw (sendOutcome : Nat → Option String)
    (baseWait : ℚ) (hthrow : ∀ a, sendOutcome a ≠ none) :
    ∀ fuel attempt lastErr,
      (send_email_with_retry_loop sendOutcome baseWait fuel attempt lastErr).1.1 = false := by
  intro fuel
  induction fuel with
  | zero => intro attempt lastErr; rfl
  | succ fuel ih =>
    intro attempt lastErr
    rcases hs : sendOutcome attempt with _ | msg
    · exact absurd hs (hthrow attempt)
    · simp only [send_email_with_retry_loop, hs]
      exact ih (attempt + 1) msg

lemma send_email_with_retry_loop_true_of (sendOutcome : Nat → Option String)
    (baseWait : ℚ) :
    ∀ fuel attempt lastErr,
      (send_email_with_retry_loop sendOutcome baseWait fuel attempt lastErr).1.1 = true →
      ∃ a, attempt ≤ a ∧ a < attempt + fuel ∧ sendOutcome a = none := by
  intro fuel
  induction fuel with
  | zero => intro attempt lastErr h; cases h
  | succ fuel ih =>
    intro attempt lastErr h
    rcases hs : sendOutcome attempt with _ | msg
    · exact ⟨attempt, le_refl _, by omega, hs⟩
    · simp only [send_email_with_retry_loop, hs] at h
      obtain ⟨a, ha1, ha2, ha3⟩ := ih (attempt + 1) msg h
      exact ⟨a, by omega, by omega, ha3⟩

lemma countSent_append (s t : List Notifica) (dk : String) :
    countSent (s ++ t) dk = countSent s dk + countSent t dk := by
  simp [countSent, List.filter_append]

lemma fetch_events_page_loop_429_run (resp : Nat → AttemptOutcome)
    (maxR : Nat) (ra : Nat → Option Nat) (urls bodies : Nat → String) :
    ∀ (k a fuel : Nat), a + k ≤ maxR → maxR + 1 ≤ a + fuel →
      (∀ i, i < k → resp (a + i) = .resp 429 (ra (a + i)) (urls (a + i)) (bodies (a + i))) →
      ∀ (s : Nat) (raK : Option Nat) (u b : String),
        resp (a + k) = .resp s raK u b → s < 400 →
        fetch_events_page_loop resp maxR fuel a =
          { result := .ok b
            waits := (List.range k).map (fun i =>
              match ra (a + i) with
              | some n => (n : ℚ)
              | none => (2 : ℚ) ^ (a + i))
            requests := a + k + 1 } := by
  intro k
  induction k with
  | zero =>
    intro a fuel ha hfuel _ s raK u b hsucc hs
    obtain ⟨f, rfl⟩ : ∃ f, fuel = f + 1 := by
      cases fuel
      · omega
      · exact ⟨_, rfl⟩
    rw [fetch_events_page_loop]
    rw [Nat.add_zero] at hsucc
    rw [hsucc]
    dsimp only
    have h429 : ¬(s = 429 ∧ a < maxR) := by omega
    rw [if_neg h429, if_neg (by omega : ¬400 ≤ s)]
    simp
  | succ k ih =>
    intro a fuel ha hfuel hblock s raK u b hsucc hs
    obtain ⟨f, rfl⟩ : ∃ f, fuel = f + 1 := by
      cases fuel
      · omega
      · exact ⟨_, rfl⟩
    rw [fetch_events_page_loop]
    have h0 := hblock 0 (Nat.succ_pos k)
    rw [Nat.add_zero] at h0
    rw [h0]
    dsimp only
    rw [if_pos (⟨rfl, by omega⟩ : (429 : Nat) = 429 ∧ a < maxR)]
    have hrec := ih (a + 1) f (by omega) (by omega)
      (fun i hi => by
        have h := hblock (i + 1) (by omega)
        rwa [show a + (i + 1) = a + 1 + i by omega] at h)
      s raK u b (by rwa [show a + 1 + k = a + (k + 1) by omega]) hs
    rw [hrec]
    have hw : (List.range (k + 1)).map (fun i =>
        match ra (a + i) with
        | some n => (n : ℚ)
        | none => (2 : ℚ) ^ (a + i)) =
      (match ra a with
        | some n => (n : ℚ)
        | none => (2 : ℚ) ^ a) ::
        (List.range k).map (fun i =>
          match ra (a + 1 + i) with
          | some n => (n : ℚ)
          | none => (2 : ℚ) ^ (a + 1 + i)) := by
      rw [List.range_succ_eq_map, List.map_cons, List.map_map]
      refine congrArg₂ _ (by rw [Nat.add_zero]) ?_
      refine List.map_congr_left (fun i _ => ?_)
      simp only [Function.comp]
      rw [show a + (i + 1) = a + 1 + i by omega]
    simp only [FetchPageRun.mk.injEq]
    exact ⟨trivial, hw.symm, by omega⟩

lemma check_page_loop_blocked_run (resp : Nat → AttemptOutcome) (maxR : Nat)
    (jitter : Nat → ℚ) :
    ∀ (k a fuel : Nat), a + k ≤ maxR → maxR + 1 ≤ a + fuel →
      (∀ i, i < k → ∃ s ra u b, resp (a + i) = .resp s ra u b ∧
        (s = 403 ∨ s = 429 ∨ (500 ≤ s ∧ s ≤ 599))) →
      ∀ (ra' : Option Nat) (u body : String),
        resp (a + k) = .resp 200 ra' u body →
        ∀ ls lu, check_page_loop resp maxR jitter fuel a ls lu =
          (htmlResultOfBody 200 u body,
            (List.range k).map (fun i => (2 : ℚ) ^ (a + i) + jitter (a + i))) := by
  intro k
  induction k with
  | zero =>
    intro a fuel ha hfuel _ ra' u body hsucc ls lu
    obtain ⟨f, rfl⟩ : ∃ f, fuel = f + 1 := by
      cases fuel
      · omega
      · exact ⟨_, rfl⟩
    rw [check_page_loop]
    rw [Nat.add_zero] at hsucc
    rw [hsucc]
    dsimp only
    rw [if_neg (by omega : ¬(200 : Nat) = 404),
      if_neg (by omega : ¬((200 : Nat) = 403 ∨ (200 : Nat) = 429 ∨
        (500 ≤ (200 : Nat) ∧ (200 : Nat) ≤ 599))),
      if_neg (by omega : ¬(400 : Nat) ≤ 200)]
    simp
  | succ k ih =>
    intro a fuel ha hfuel hblock ra' u body hsucc ls lu
    obtain ⟨f, rfl⟩ : ∃ f, fuel = f + 1 := by
      cases fuel
      · omega
      · exact ⟨_, rfl⟩
    obtain ⟨s, ra0, u0, b0, h0, hs⟩ := hblock 0 (Nat.succ_pos k)
    rw [Nat.add_zero] at h0
    rw [check_page_loop, h0]
    dsimp only
    rw [if_neg (by omega : ¬s = 404), if_pos hs, if_pos (by omega : a < maxR)]
    have hrec := ih (a + 1) f (by omega) (by omega)
      (fun i hi => by
        obtain ⟨s', ra'', u'', b'', hr, hs'⟩ := hblock (i + 1) (by omega)
        rw [show a + (i + 1) = a + 1 + i by omega] at hr
        exact ⟨s', ra'', u'', b'', hr, hs'⟩)
      ra' u body (by rwa [show a + 1 + k = a + (k + 1) by omega])
      (some s) (some u0)
    rw [hrec]
    have hw : (List.range (k + 1)).map
        (fun i => (2 : ℚ) ^ (a + i) + jitter (a + i)) =
      ((2 : ℚ) ^ a + jitter a) ::
        (List.range k).map (fun i => (2 : ℚ) ^ (a + 1 + i) + jitter (a + 1 + i)) := by
      rw [List.range_succ_eq_map, List.map_cons, List.map_map]
      refine congrArg₂ _ (by rw [Nat.add_zero]) ?_
      refine List.map_congr_left (fun i _ => ?_)
      simp only [Function.comp]
      rw [show a + (i + 1) = a + 1 + i by omega]
    rw [hw]

/-! ## Claim theorems -/

/-- C8: the change-detector checksum is invariant under source-side key
ordering: two snapshot objects equal as maps (a permutation of the same
key/value fields, keys distinct) serialise canonically to the same string —
`json.dumps(..., sort_keys=True)` sorts the items — hence hash identically,
for any hash function (in particular SHA-256). -/
theorem stable_checksum_key_order_invariant
    (hash : String → String) (fs₁ fs₂ : List (String × Json))
    (hperm : fs₁.Perm fs₂) (_hnodup : (fs₁.map Prod.fst).Nodup) :
    stable_checksum hash (Json.obj fs₁) = stable_checksum hash (Json.obj fs₂) := by
  unfold stable_checksum
  congr 1
  simp only [jsonSerialize]
  rw [serializeFields_eq_map, serializeFields_eq_map,
    sortFields_eq_of_perm (hperm.map _)]

/-- Witness for C8 at a concrete pair of objects differing only in key
order. -/
theorem stable_checksum_key_order_invariant_witness :
    stable_checksum (fun s => s) (Json.obj [("b", Json.num 1), ("a", Json.null)]) =
      stable_checksum (fun s => s) (Json.obj [("a", Json.null), ("b", Json.num 1)]) :=
  stable_checksum_key_order_invariant (fun s => s) _ _
    (List.Perm.swap _ _ _) (by decide)

/-- C2: `merge_tm_signals` is deterministic (it is a function) and follows
exactly the spec's §4.4 precedence (`mergePrecedenceSpec`): definite page
verdict first, then non-unknown price verdict, then any page verdict, else
unknown.  The spec's abstract source tags page/price/mixed are emitted by
the code as the strings "html"/"mfxapi"/"mixed" (`MergeSource.label`).  The
three acceptance examples of the claim are instances, spelled out as the
last three conjuncts. -/
theorem merge_tm_signals_precedence :
    (∀ (html : HtmlResult) (prices : PriceResult),
      (merge_tm_signals html prices).availability =
        (mergePrecedenceSpec html.ok html.availability
          prices.ok prices.availability).1 ∧
      (merge_tm_signals html prices).source =
        (mergePrecedenceSpec html.ok html.availability
          prices.ok prices.availability).2.label) ∧
    ((merge_tm_signals
        { ok := true, availability := .available, is_resale := false
          status_code := some 200, final_url := none, reason := none }
        { ok := true, status_code := some 200, availability := .unavailable
          min_price := none, max_price := none, currency := none
          reason := none, raw := none }).availability = .available ∧
      (merge_tm_signals
        { ok := true, availability := .available, is_resale := false
          status_code := some 200, final_url := none, reason := none }
        { ok := true, status_code := some 200, availability := .unavailable
          min_price := none, max_price := none, currency := none
          reason := none, raw := none }).source = "html") ∧
    ((merge_tm_signals
        { ok := true, availability := .unknown, is_resale := false
          status_code := some 200, final_url := none, reason := none }
        { ok := true, status_code := some 200, availability := .limited
          min_price := none, max_price := none, currency := none
          reason := none, raw := none }).availability = .limited ∧
      (merge_tm_signals
        { ok := true, availability := .unknown, is_resale := false
          status_code := some 200, final_url := none, reason := none }
        { ok := true, status_code := some 200, availability := .limited
          min_price := none, max_price := none, currency := none
          reason := none, raw := none }).source = "mfxapi") ∧
    ((merge_tm_signals
        { ok := false, availability := .unknown, is_resale := false
          status_code := none, final_url := none, reason := some "exception: x" }
        { ok := false, status_code := none, availability := .unknown
          min_price := none, max_price := none, currency := none
          reason := some "mfxapi exception: y", raw := none }).availability = .unknown ∧
      (merge_tm_signals
        { ok := false, availability := .unknown, is_resale := false
          status_code := none, final_url := none, reason := some "exception: x" }
        { ok := false, status_code := none, availability := .unknown
          min_price := none, max_price := none, currency := none
          reason := some "mfxapi exception: y", raw := none }).source = "mixed") := by
  refine ⟨?_, by decide, by decide, by decide⟩
  intro html prices
  rcases html with ⟨hok, hav, hres, hsc, hfu, hre, hsa⟩
  rcases prices with ⟨pok, psc, pav, pmin, pmax, pcur, pre, praw⟩
  cases hok <;> cases pok <;> cases hav <;> cases pav <;>
    simp [merge_tm_signals, mergePrecedenceSpec, MergeSource.label]

/-- C10: the merged resale flag is always the page observation's flag
(`is_resale` is taken from `html` and never from `prices` in
`merge_tm_signals`), and every failure path of the page checker returns
`is_resale = False` — so a failed page fetch yields a merged resale flag of
`false` no matter what the pricing payload said. -/
theorem merge_resale_flag_from_page_only :
    (∀ (html : HtmlResult) (prices : PriceResult),
      (merge_tm_signals html prices).is_resale = html.is_resale) ∧
    (∀ (resp : Nat → AttemptOutcome) (maxR : Nat) (jitter : Nat → ℚ),
      (check_ticketmaster_page_availability resp maxR jitter).1.ok = false →
      (check_ticketmaster_page_availability resp maxR jitter).1.is_resale = false) := by
  constructor
  · intro html prices
    simp only [merge_tm_signals]
    split_ifs <;> rfl
  · intro resp maxR jitter h
    exact check_page_loop_fail_no_resale resp maxR jitter _ _ _ _ h

/-- Witness for C10: a page fetch that raises on its only attempt fails with
`is_resale = false`. -/
theorem merge_resale_flag_from_page_only_witness :
    (check_ticketmaster_page_availability (fun _ => .exc "boom") 0 (fun _ => 0)).1.ok
        = false ∧
    (check_ticketmaster_page_availability (fun _ => .exc "boom") 0 (fun _ => 0)).1.is_resale
        = false :=
  ⟨rfl, merge_resale_flag_from_page_only.2 (fun _ => .exc "boom") 0 (fun _ => 0) rfl⟩

/-- C3: when the mail capability throws on every retry attempt,
`_send_email_with_retry` reports failure; the pro scanner then writes
nothing at all (no `SENT` row, so the key can be retried later), and the
resale scanner records the attempt as `FAILED`, never `SENT`.  Conversely a
run of the pro dispatch step that changes the store at all must have had a
successful send attempt within the retry budget. -/
theorem failed_send_never_records_sent (store : List Notifica) (dk : String)
    (sendOutcome : Nat → Option String) (emailRetries : Nat) (emailWait : ℚ)
    (msg : String) (hthrow : ∀ a, sendOutcome a ≠ none) :
    (send_email_with_retry sendOutcome emailRetries emailWait).1.1 = false ∧
    proNotifyStep store dk sendOutcome emailRetries emailWait = store ∧
    countSent (resaleNotifyStep store dk (some msg)) dk = countSent store dk ∧
    (∀ so : Nat → Option String,
      proNotifyStep store dk so emailRetries emailWait ≠ store →
      ∃ a, 1 ≤ a ∧ a ≤ emailRetries ∧ so a = none) := by
  have hfail : (send_email_with_retry sendOutcome emailRetries emailWait).1.1 = false :=
    send_email_with_retry_loop_all_throw sendOutcome emailWait hthrow emailRetries 1 ""
  refine ⟨hfail, ?_, ?_, ?_⟩
  · unfold proNotifyStep
    split_ifs with hex
    · rfl
    · simp [hfail]
  · unfold resaleNotifyStep
    split_ifs with hex
    · rfl
    · rw [countSent_append]
      simp [countSent]
  · intro so hne
    unfold proNotifyStep at hne
    split_ifs at hne with hex
    · exact absurd rfl hne
    · cases hb : (send_email_with_retry so emailRetries emailWait).1.1 with
      | true =>
        obtain ⟨a, ha1, ha2, ha3⟩ :=
          send_email_with_retry_loop_true_of so emailWait emailRetries 1 "" hb
        exact ⟨a, ha1, by omega, ha3⟩
      | false =>
        simp only [hb] at hne
        exact absurd rfl hne

/-- Witness for C3: two attempts, both throwing. -/
theorem failed_send_never_records_sent_witness :
    (send_email_with_retry (fun _ => some "smtp down") 2 1).1.1 = false ∧
    proNotifyStep [] "k" (fun _ => some "smtp down") 2 1 = [] ∧
    countSent (resaleNotifyStep [] "k" (some "smtp down")) "k" = countSent [] "k" ∧
    (∀ so : Nat → Option String,
      proNotifyStep [] "k" so 2 1 ≠ [] →
      ∃ a, 1 ≤ a ∧ a ≤ 2 ∧ so a = none) :=
  failed_send_never_records_sent [] "k" (fun _ => some "smtp down") 2 1 "smtp down"
    (fun _ h => Option.noConfusion h)

/-- C4: when the new checksum equals the stored one the scrub command's
mapping step updates only `ultima_scansione` (snapshot, checksum and url are
untouched); when it differs, snapshot, checksum and timestamp (and a
non-empty url) are written together — in the source inside one
`transaction.atomic()` block, here one pure record update.  Consequently a
second (and any later) run over identical source data only touches the
timestamp. -/
theorem update_mapping_frame_and_idempotent (hash : String → String)
    (e : Json) (url : String) (now now₂ : Int) :
    (∀ m : Mapping, m.checksum_dati = stable_checksum hash e →
      update_mapping hash (some m) e url now = { m with ultima_scansione := now }) ∧
    (∀ m : Mapping, m.checksum_dati ≠ stable_checksum hash e →
      update_mapping hash (some m) e url now =
        { url := if url = "" then m.url else url
          snapshot_raw := e
          checksum_dati := stable_checksum hash e
          ultima_scansione := now }) ∧
    (∀ mapping : Option Mapping,
      update_mapping hash (some (update_mapping hash mapping e url now)) e url now₂ =
        { update_mapping hash mapping e url now with ultima_scansione := now₂ }) := by
  refine ⟨?_, ?_, ?_⟩
  · intro m h
    simp [update_mapping, h]
  · intro m h
    simp [update_mapping, h]
  · intro mapping
    have hck : (update_mapping hash mapping e url now).checksum_dati =
        stable_checksum hash e := by
      rcases mapping with _ | m
      · rfl
      · by_cases h : m.checksum_dati = stable_checksum hash e <;>
          simp [update_mapping, h]
    generalize hm : update_mapping hash mapping e url now = m₁ at hck ⊢
    simp [update_mapping, hck]

lemma countSent_zero_of_not_existsSent {store : List Notifica} {dk : String}
    (h : existsSent store dk = false) : countSent store dk = 0 := by
  rw [countSent, List.length_eq_zero, List.filter_eq_nil_iff]
  intro n hn
  rw [existsSent, List.any_eq_false] at h
  exact fun hp => h n hn hp

lemma runWorkerSeq_spec (store : List Notifica) (dk : String) (ok : Bool) :
    runWorkerSeq store dk ok =
      if existsSent store dk then store
      else if ok then store ++ [{ dedupe_key := dk, status := .SENT }] else store := by
  by_cases h : existsSent store dk = true <;> cases ok <;>
    simp [runWorkerSeq, workerStep, h]

/-- C1 counterexample: two workers holding the same dedupe key, each
executing the source's sequence check → send → insert as three separate
atomic steps (the SENT re-check of scan_ticketmaster_pro.py line 268 runs
before the send and outside the `transaction.atomic()` of line 322, and
`Notifica.dedupe_key` has no uniqueness constraint), interleaved so both
checks precede both inserts: the store ends with two SENT rows for the key,
refuting at-most-one-SENT under concurrency. -/
theorem concurrent_dedupe_counterexample :
    countSent (runTwoWorkers [] ⟨"k", true, .ready⟩ ⟨"k", true, .ready⟩
      [true, false, true, false, true, false]).1 "k" = 2 ∧
    ¬ countSent (runTwoWorkers [] ⟨"k", true, .ready⟩ ⟨"k", true, .ready⟩
      [true, false, true, false, true, false]).1 "k" ≤ 1 := by decide

/-- C1 amended: for sequential (non-interleaved) runs the dedupe check does
guarantee at-most-one SENT per key — any number of complete check→send→insert
runs starting from a store with at most one SENT row for the key leaves at
most one SENT row for it.  (The concurrent half of the original claim is
refuted by `concurrent_dedupe_counterexample`: the re-check is *not* inside
the atomic unit that records the send.) -/
theorem at_most_one_sent_sequential (store : List Notifica) (dk : String)
    (runs : List Bool) (h : countSent store dk ≤ 1) :
    countSent (runs.foldl (fun s ok => runWorkerSeq s dk ok) store) dk ≤ 1 := by
  induction runs generalizing store with
  | nil => exact h
  | cons ok runs ih =>
    apply ih
    show countSent (runWorkerSeq store dk ok) dk ≤ 1
    rw [runWorkerSeq_spec]
    split_ifs with hex hok
    · exact h
    · rw [countSent_append]
      have h0 : countSent store dk = 0 :=
        countSent_zero_of_not_existsSent (by simpa using hex)
      have h1 : countSent [{ dedupe_key := dk, status := .SENT }] dk = 1 := by
        simp [countSent, List.filter_cons]
      omega
    · exact h

/-- Witness for C1 (amended): three sequential runs on the same key create
one SENT row, never two. -/
theorem at_most_one_sent_sequential_witness :
    countSent [] "k" ≤ 1 ∧
    countSent ([true, true, true].foldl (fun s ok => runWorkerSeq s "k" ok) []) "k" ≤ 1 :=
  ⟨by decide, at_most_one_sent_sequential [] "k" [true, true, true] (by decide)⟩

lemma windowDedupStep_spec (w : List TMEvent) :
    ∀ (seen : List String) (yielded : List TMEvent),
      (∀ k, yielded.countP (fun e => decide (e.id = some k)) =
        if k ∈ seen then 1 else 0) →
      "" ∉ seen →
      ((∀ k, (windowDedupStep seen yielded w).2.countP
            (fun e => decide (e.id = some k)) =
          if k ∈ (windowDedupStep seen yielded w).1 then 1 else 0) ∧
        "" ∉ (windowDedupStep seen yielded w).1 ∧
        (∀ k, k ∈ (windowDedupStep seen yielded w).1 ↔
          k ∈ seen ∨ (k ≠ "" ∧ ∃ e ∈ w, e.id = some k))) := by
  induction w with
  | nil =>
    intro seen yielded hcount hns
    exact ⟨hcount, hns, fun k => by simp [windowDedupStep]⟩
  | cons e es ih =>
    intro seen yielded hcount hns
    rcases hid : e.id with _ | eid
    · have hstep : windowDedupStep seen yielded (e :: es) =
          windowDedupStep seen yielded es := by
        simp [windowDedupStep, hid]
      obtain ⟨c1, c2, c3⟩ := ih seen yielded hcount hns
      refine ⟨by rw [hstep]; exact c1, by rw [hstep]; exact c2, fun k => ?_⟩
      rw [hstep, c3 k, List.exists_mem_cons_iff, hid]
      simp
    · by_cases he : eid = ""
      · subst he
        have hstep : windowDedupStep seen yielded (e :: es) =
            windowDedupStep seen yielded es := by
          simp [windowDedupStep, hid]
        obtain ⟨c1, c2, c3⟩ := ih seen yielded hcount hns
        refine ⟨by rw [hstep]; exact c1, by rw [hstep]; exact c2, fun k => ?_⟩
        rw [hstep, c3 k, List.exists_mem_cons_iff, hid]
        constructor
        · rintro (hk | ⟨hk, hex⟩)
          · exact Or.inl hk
          · exact Or.inr ⟨hk, Or.inr hex⟩
        · rintro (hk | ⟨hk, (hthis | hex)⟩)
          · exact Or.inl hk
          · exact absurd (Option.some.inj hthis).symm hk
          · exact Or.inr ⟨hk, hex⟩
      · by_cases hmem : eid ∈ seen
        · have hstep : windowDedupStep seen yielded (e :: es) =
              windowDedupStep seen yielded es := by
            simp [windowDedupStep, hid, he, hmem]
          obtain ⟨c1, c2, c3⟩ := ih seen yielded hcount hns
          refine ⟨by rw [hstep]; exact c1, by rw [hstep]; exact c2, fun k => ?_⟩
          rw [hstep, c3 k, List.exists_mem_cons_iff, hid]
          constructor
          · rintro (hk | ⟨hk, hex⟩)
            · exact Or.inl hk
            · exact Or.inr ⟨hk, Or.inr hex⟩
          · rintro (hk | ⟨hk, (hthis | hex)⟩)
            · exact Or.inl hk
            · exact Or.inl ((Option.some.inj hthis) ▸ hmem)
            · exact Or.inr ⟨hk, hex⟩
        · have hstep : windowDedupStep seen yielded (e :: es) =
              windowDedupStep (eid :: seen) (yielded ++ [e]) es := by
            simp [windowDedupStep, hid, he, hmem]
          have hcount' : ∀ k, (yielded ++ [e]).countP
              (fun e' => decide (e'.id = some k)) =
              if k ∈ eid :: seen then 1 else 0 := by
            intro k
            rw [List.countP_append, hcount k]
            by_cases hk : k = eid
            · subst hk
              simp [List.countP_cons, hid, hmem]
            · simp [List.countP_cons, hid, hk, Ne.symm hk]
          have hns' : "" ∉ eid :: seen := by
            simp [List.mem_cons]
            exact ⟨fun hc => he hc.symm, hns⟩
          obtain ⟨c1, c2, c3⟩ := ih (eid :: seen) (yielded ++ [e]) hcount' hns'
          refine ⟨by rw [hstep]; exact c1, by rw [hstep]; exact c2, fun k => ?_⟩
          rw [hstep, c3 k, List.exists_mem_cons_iff, hid, List.mem_cons]
          constructor
          · rintro ((hk | hk) | ⟨hk, hex⟩)
            · exact Or.inr ⟨hk ▸ he, Or.inl (by rw [hk])⟩
            · exact Or.inl hk
            · exact Or.inr ⟨hk, Or.inr hex⟩
          · rintro (hk | ⟨hk, (hthis | hex)⟩)
            · exact Or.inl (Or.inr hk)
            · exact Or.inl (Or.inl (Option.some.inj hthis).symm)
            · exact Or.inr ⟨hk, hex⟩

lemma windowDedupRun_spec (ws : List (List TMEvent)) :
    ∀ (seen : List String) (yielded : List TMEvent),
      (∀ k, yielded.countP (fun e => decide (e.id = some k)) =
        if k ∈ seen then 1 else 0) →
      "" ∉ seen →
      ((∀ k, (windowDedupRun seen yielded ws).2.countP
            (fun e => decide (e.id = some k)) =
          if k ∈ (windowDedupRun seen yielded ws).1 then 1 else 0) ∧
        "" ∉ (windowDedupRun seen yielded ws).1 ∧
        (∀ k, k ∈ (windowDedupRun seen yielded ws).1 ↔
          k ∈ seen ∨ (k ≠ "" ∧ ∃ w ∈ ws, ∃ e ∈ w, e.id = some k))) := by
  induction ws with
  | nil =>
    intro seen yielded hc hn
    exact ⟨hc, hn, fun k => by simp [windowDedupRun]⟩
  | cons w ws ih =>
    intro seen yielded hc hn
    obtain ⟨s1, s2, s3⟩ := windowDedupStep_spec w seen yielded hc hn
    have hrw : windowDedupRun seen yielded (w :: ws) =
        windowDedupRun (windowDedupStep seen yielded w).1
          (windowDedupStep seen yielded w).2 ws := by
      simp [windowDedupRun]
    obtain ⟨r1, r2, r3⟩ := ih _ _ s1 s2
    refine ⟨by rw [hrw]; exact r1, by rw [hrw]; exact r2, fun k => ?_⟩
    rw [hrw, r3 k, s3 k, List.exists_mem_cons_iff]
    constructor
    · rintro ((hk | ⟨hk, hex⟩) | ⟨hk, hex⟩)
      · exact Or.inl hk
      · exact Or.inr ⟨hk, Or.inl hex⟩
      · exact Or.inr ⟨hk, Or.inr hex⟩
    · rintro (hk | ⟨hk, (hex | hex)⟩)
      · exact Or.inl (Or.inl hk)
      · exact Or.inl (Or.inr ⟨hk, hex⟩)
      · exact Or.inr ⟨hk, hex⟩

lemma build_windows_loop_spec (e step : Int) (hstep : 0 < step) :
    ∀ (n : Nat) (cur : Int), (e - cur).toNat ≤ n → cur < e →
      (build_windows_loop cur e step ≠ [] ∧
        (build_windows_loop cur e step).head?.map TMWindow.start = some cur ∧
        (build_windows_loop cur e step).getLast?.map TMWindow.stop = some e ∧
        List.Chain' (fun a b => a.stop = b.start) (build_windows_loop cur e step) ∧
        (∀ w ∈ build_windows_loop cur e step,
          w.start < w.stop ∧ w.stop - w.start ≤ step) ∧
        (∀ w ∈ (build_windows_loop cur e step).dropLast,
          w.stop - w.start = step)) := by
  intro n
  induction n with
  | zero => intro cur hn hcur; omega
  | succ n ih =>
    intro cur hn hcur
    rw [build_windows_loop, dif_pos ⟨hcur, hstep⟩]
    by_cases hend : e ≤ cur + step
    · have hnxt : min (cur + step) e = e := by omega
      rw [hnxt]
      dsimp only
      have htail : build_windows_loop e e step = [] := by
        rw [build_windows_loop, dif_neg]
        omega
      rw [htail]
      refine ⟨by simp, by simp, by simp, List.chain'_singleton _, ?_, by simp⟩
      intro w hw
      rw [List.mem_singleton] at hw
      subst hw
      exact ⟨hcur, by simp; omega⟩
    · have hnxt : min (cur + step) e = cur + step := by omega
      rw [hnxt]
      dsimp only
      obtain ⟨ih1, ih2, ih3, ih4, ih5, ih6⟩ :=
        ih (cur + step) (by omega) (by omega)
      obtain ⟨b, l, htl⟩ : ∃ b l, build_windows_loop (cur + step) e step = b :: l := by
        rcases hb : build_windows_loop (cur + step) e step with _ | ⟨b, l⟩
        · exact absurd hb ih1
        · exact ⟨b, l, rfl⟩
      refine ⟨by simp, by simp, ?_, ?_, ?_, ?_⟩
      · rw [htl] at ih3 ⊢
        rw [List.getLast?_cons_cons]
        exact ih3
      · rw [htl] at ih2 ih4 ⊢
        refine List.chain'_cons.mpr ⟨?_, ih4⟩
        simp at ih2
        simp [ih2]
      · intro w hw
        rcases List.mem_cons.mp hw with hw | hw
        · subst hw
          constructor
          · simp; omega
          · simp
        · exact ih5 w hw
      · rw [htl] at ih6 ⊢
        rw [List.dropLast_cons₂]
        intro w hw
        rcases List.mem_cons.mp hw with hw | hw
        · subst hw; simp
        · exact ih6 w hw

lemma ProCounters.processed_bump (c : ProCounters) (b : ProBucket) :
    (c.bump b).processed = c.processed := by
  cases b <;> rfl

lemma ProCounters.get_bump (c : ProCounters) (b' b : ProBucket) :
    (c.bump b').get b = c.get b + if b' = b then 1 else 0 := by
  cases b' <;> cases b <;> simp [ProCounters.bump, ProCounters.get]

lemma ProCounters.get_processed_set (c : ProCounters) (n : Nat) (b : ProBucket) :
    ProCounters.get { c with processed := n } b = c.get b := by
  cases b <;> rfl

lemma ProCounters.get_init (b : ProBucket) : ProCounters.get {} b = 0 := by
  cases b <;> rfl

lemma run_pro_loop_spec (ts : List (Nat × TargetStep)) :
    ∀ (c : ProCounters) (log : List String),
      (run_pro_loop c log ts).1.processed = c.processed + ts.length ∧
      (∀ b, (run_pro_loop c log ts).1.get b =
        c.get b + ts.countP (fun t => decide (t.2 = .normal b))) ∧
      (run_pro_loop c log ts).2 = log ++ ts.filterMap (fun t =>
        match t.2 with
        | .raises m => some (fatalSkipLine t.1 m)
        | _ => none) := by
  induction ts with
  | nil => intro c log; exact ⟨rfl, fun b => by simp [run_pro_loop], by simp [run_pro_loop]⟩
  | cons t ts ih =>
    intro c log
    obtain ⟨id, step⟩ := t
    cases step with
    | normal b' =>
      obtain ⟨ih1, ih2, ih3⟩ :=
        ih (ProCounters.bump { c with processed := c.processed + 1 } b') log
      refine ⟨?_, ?_, ?_⟩
      · rw [run_pro_loop, ih1, ProCounters.processed_bump]
        simp; omega
      · intro b
        rw [run_pro_loop, ih2 b, ProCounters.get_bump, ProCounters.get_processed_set,
          List.countP_cons]
        simp only [decide_eq_true_eq, TargetStep.normal.injEq]
        by_cases hb : b' = b
        · subst hb
          simp
          omega
        · simp [hb, Ne.symm hb]
      · rw [run_pro_loop, ih3]
        simp
    | raises msg =>
      obtain ⟨ih1, ih2, ih3⟩ :=
        ih { c with processed := c.processed + 1 } (log ++ [fatalSkipLine id msg])
      refine ⟨?_, ?_, ?_⟩
      · rw [run_pro_loop, ih1]; simp; omega
      · intro b
        rw [run_pro_loop, ih2 b, ProCounters.get_processed_set, List.countP_cons]
        simp
      · rw [run_pro_loop, ih3]
        simp

lemma run_paid_loop_error (pre : List (Nat × TargetStep)) :
    ∀ (c : ProCounters) (id : Nat) (msg : String)
      (post : List (Nat × TargetStep)),
      (∀ t ∈ pre, ∀ m, t.2 ≠ TargetStep.raises m) →
      run_paid_loop c (pre ++ (id, TargetStep.raises msg) :: post) = .error (id, msg) := by
  induction pre with
  | nil => intro c id msg post _; rfl
  | cons t pre ih =>
    intro c id msg post hnorm
    obtain ⟨i, step⟩ := t
    cases step with
    | normal b =>
      rw [List.cons_append, run_paid_loop]
      exact ih _ id msg post (fun t ht m => hnorm t (List.mem_cons_of_mem _ ht) m)
    | raises m =>
      exact absurd rfl (hnorm (i, .raises m) (List.mem_cons_self _ _) m)

/-- C5 counterexample: the scan_paid_alerts loop has no per-target exception
handler, so a raising second target aborts the run (the third target is
never processed and the summary with its counters is lost); and in
scan_ticketmaster_pro the catch-all logs and proceeds but increments *no*
failure counter (all buckets stay 0 for a raising target).  A concrete
raising input exists in the source: scan_paid_alerts calls the scraper with
a `session=` keyword the scraper's signature does not accept. -/
theorem per_target_isolation_counterexample :
    run_paid [(1, .normal .notified), (2, .raises "TypeError: unexpected keyword argument session"),
        (3, .normal .notified)] =
      .error (2, "TypeError: unexpected keyword argument session") ∧
    (run_pro [(7, .raises "boom")]).1.processed = 1 ∧
    (∀ b, (run_pro [(7, .raises "boom")]).1.get b = 0) :=
  ⟨rfl, rfl, fun b => by cases b <;> rfl⟩

/-- C5 amended: in scan_ticketmaster_pro any per-target exception is caught
at the loop, logged with the target identifier, and the loop proceeds (every
target is processed and the run always completes), but the exception is
counted in no failure bucket — the buckets count exactly the
normally-completing targets; scan_paid_alerts has no per-target handler, so
the first raising target aborts its run. -/
theorem per_target_isolation_amended (targets : List (Nat × TargetStep)) :
    (run_pro targets).1.processed = targets.length ∧
    (∀ id msg, (id, TargetStep.raises msg) ∈ targets →
      fatalSkipLine id msg ∈ (run_pro targets).2) ∧
    (∀ b, (run_pro targets).1.get b =
      targets.countP (fun t => decide (t.2 = .normal b))) ∧
    (∀ (pre post : List (Nat × TargetStep)) (id : Nat) (msg : String),
      (∀ t ∈ pre, ∀ m, t.2 ≠ TargetStep.raises m) →
      run_paid (pre ++ (id, TargetStep.raises msg) :: post) = .error (id, msg)) := by
  obtain ⟨h1, h2, h3⟩ := run_pro_loop_spec targets {} []
  refine ⟨by simpa using h1, ?_,
    fun b => by simpa [run_pro, ProCounters.get_init] using h2 b, ?_⟩
  · intro id msg hmem
    rw [run_pro, h3]
    simp only [List.nil_append]
    exact List.mem_filterMap.mpr ⟨(id, .raises msg), hmem, rfl⟩
  · intro pre post id msg hnorm
    exact run_paid_loop_error pre {} id msg post hnorm

/-- Witness for C5 (amended): one normal and one raising target — the pro
run processes both and logs the raiser; a paid run with a normal target
before the raiser aborts. -/
theorem per_target_isolation_amended_witness :
    (run_pro [(1, .normal .notified), (2, .raises "x")]).1.processed = 2 ∧
    fatalSkipLine 2 "x" ∈ (run_pro [(1, .normal .notified), (2, .raises "x")]).2 ∧
    run_paid ([(1, .normal .notified)] ++ (2, TargetStep.raises "x") :: []) =
      .error (2, "x") :=
  ⟨(per_target_isolation_amended [(1, .normal .notified), (2, .raises "x")]).1,
    (per_target_isolation_amended [(1, .normal .notified), (2, .raises "x")]).2.1
      2 "x" (by decide),
    (per_target_isolation_amended
        [(1, .normal .notified), (2, .raises "x")]).2.2.2
      [(1, .normal .notified)] [] 2 "x"
      (fun t ht m h => by
        rw [List.mem_singleton] at ht
        subst ht
        exact TargetStep.noConfusion h)⟩

/-- Witness for C4: a stored mapping whose checksum matches keeps snapshot,
checksum and url and gets the fresh timestamp; a differing one is rewritten;
running twice on the same payload leaves the second run timestamp-only. -/
theorem update_mapping_frame_and_idempotent_witness :
    update_mapping (fun _ => "h") (some ⟨"u", Json.null, "h", 0⟩) Json.null "u2" 5 =
      { (⟨"u", Json.null, "h", 0⟩ : Mapping) with ultima_scansione := 5 } ∧
    update_mapping (fun _ => "h") (some ⟨"u", Json.null, "x", 0⟩) Json.null "u2" 5 =
      { url := if "u2" = "" then "u" else "u2", snapshot_raw := Json.null
        checksum_dati := stable_checksum (fun _ => "h") Json.null
        ultima_scansione := 5 } ∧
    update_mapping (fun _ => "h")
        (some (update_mapping (fun _ => "h") none Json.null "u2" 5)) Json.null "u2" 9 =
      { update_mapping (fun _ => "h") none Json.null "u2" 5 with
          ultima_scansione := 9 } :=
  ⟨(update_mapping_frame_and_idempotent (fun _ => "h") Json.null "u2" 5 9).1
      ⟨"u", Json.null, "h", 0⟩ rfl,
    (update_mapping_frame_and_idempotent (fun _ => "h") Json.null "u2" 5 9).2.1
      ⟨"u", Json.null, "x", 0⟩ (by decide),
    (update_mapping_frame_and_idempotent (fun _ => "h") Json.null "u2" 5 9).2.2 none⟩

/-- C6: across the whole windowed horizon each external id is yielded at
most once, and any (truthy) id returned by at least one window — e.g. an
item sitting on the boundary of two adjacent windows — is yielded exactly
once: the run-lifetime `seen_ids` set suppresses every repeat. -/
theorem windowed_collector_yields_each_id_once (windows : List (List TMEvent)) :
    (∀ k : String, (iter_all_events_windowed windows).countP
        (fun e => decide (e.id = some k)) ≤ 1) ∧
    (∀ k : String, k ≠ "" → (∃ w ∈ windows, ∃ e ∈ w, e.id = some k) →
      (iter_all_events_windowed windows).countP
        (fun e => decide (e.id = some k)) = 1) := by
  obtain ⟨r1, r2, r3⟩ :=
    windowDedupRun_spec windows [] [] (fun k => by simp) (by simp)
  have hiter : iter_all_events_windowed windows =
      (windowDedupRun [] [] windows).2 := rfl
  constructor
  · intro k
    rw [hiter, r1 k]
    split <;> omega
  · intro k hk hex
    rw [hiter, r1 k, if_pos ((r3 k).mpr (Or.inr ⟨hk, by simpa using hex⟩))]

/-- Witness for C6: the same id returned by two adjacent windows is yielded
exactly once. -/
theorem windowed_collector_yields_each_id_once_witness :
    (iter_all_events_windowed
        [[{ id := some "a", payload := Json.null }],
          [{ id := some "a", payload := Json.null }]]).countP
      (fun e => decide (e.id = some "a")) = 1 :=
  (windowed_collector_yields_each_id_once
      [[{ id := some "a", payload := Json.null }],
        [{ id := some "a", payload := Json.null }]]).2 "a" (by decide)
    ⟨[{ id := some "a", payload := Json.null }], by simp,
      { id := some "a", payload := Json.null }, by simp, rfl⟩

/-- C7 counterexample: the claim fails on both cited fetch functions.
`fetch_events_page` does *not* treat 403 as retryable: a 403 on the first
attempt with `max_retries_429 = 6` raises immediately (one request, no
waits), even though a 200 would follow.  And the page checker does *not* let
a numeric `Retry-After` override the computed wait: a 429 carrying
`Retry-After: 100` is retried after `2 ** 0 + jitter = 1` second (jitter 0
here), not 100 — nor is any `min(..., cap)` applied anywhere. -/
theorem http_retry_counterexample :
    (fetch_events_page
        (fun i => if i = 0 then .resp 403 (some 7) "u" "" else .resp 200 none "u" "ok")
        6).result = .error "HTTP 403" ∧
    (fetch_events_page
        (fun i => if i = 0 then .resp 403 (some 7) "u" "" else .resp 200 none "u" "ok")
        6).requests = 1 ∧
    (fetch_events_page
        (fun i => if i = 0 then .resp 403 (some 7) "u" "" else .resp 200 none "u" "ok")
        6).waits = [] ∧
    (check_ticketmaster_page_availability
        (fun i => if i = 0 then .resp 429 (some 100) "u" "" else .resp 200 none "u" "")
        4 (fun _ => 0)).2 = [(1 : ℚ)] ∧
    (1 : ℚ) ≠ 100 :=
  ⟨rfl, rfl, rfl, by norm_num [check_ticketmaster_page_availability, check_page_loop,
    htmlResultOfBody], by norm_num⟩

/-- C7 amended: the retry behaviour the code actually implements.
`fetch_events_page` (catalog fetcher; `fetch_tm_eu_prices` is the same loop)
treats only 429 as retryable, up to `max_retries_429`, waiting the numeric
`Retry-After` when present and otherwise `2 ** attempt` — with no jitter and
no cap (`backoff429Waits`); any other `>= 400` status raises immediately
with no retry.  `check_ticketmaster_page_availability` treats 403/429/5xx as
retryable up to `max_retries`, waiting `2 ** attempt + jitter` — with no cap
and ignoring `Retry-After` entirely (`pageBackoffWaits` does not depend on
the response headers). -/
theorem http_retry_amended :
    (∀ (maxR k : Nat) (resp : Nat → AttemptOutcome) (ra : Nat → Option Nat)
        (urls bodies : Nat → String) (s : Nat) (raK : Option Nat) (u b : String),
      k ≤ maxR →
      (∀ i, i < k → resp i = .resp 429 (ra i) (urls i) (bodies i)) →
      resp k = .resp s raK u b → s < 400 →
      fetch_events_page resp maxR =
        { result := .ok b, waits := backoff429Waits ra k, requests := k + 1 }) ∧
    (∀ (maxR s : Nat) (resp : Nat → AttemptOutcome) (raK : Option Nat) (u b : String),
      resp 0 = .resp s raK u b → 400 ≤ s → s ≠ 429 →
      fetch_events_page resp maxR =
        { result := .error ("HTTP " ++ toString s), waits := [], requests := 1 }) ∧
    (∀ (maxR k : Nat) (jitter : Nat → ℚ) (resp : Nat → AttemptOutcome),
      k ≤ maxR →
      (∀ i, i < k → ∃ s ra u b, resp i = .resp s ra u b ∧
        (s = 403 ∨ s = 429 ∨ (500 ≤ s ∧ s ≤ 599))) →
      ∀ (ra' : Option Nat) (u body : String), resp k = .resp 200 ra' u body →
      check_ticketmaster_page_availability resp maxR jitter =
        (htmlResultOfBody 200 u body, pageBackoffWaits jitter k)) := by
  refine ⟨?_, ?_, ?_⟩
  · intro maxR k resp ra urls bodies s raK u b hk hblock hsucc hs
    have h := fetch_events_page_loop_429_run resp maxR ra urls bodies k 0 (maxR + 1)
      (by omega) (by omega)
      (fun i hi => by rw [Nat.zero_add]; exact hblock i hi)
      s raK u b (by rwa [Nat.zero_add]) hs
    rw [fetch_events_page, h]
    simp only [FetchPageRun.mk.injEq]
    refine ⟨trivial, ?_, by omega⟩
    rw [backoff429Waits]
    exact List.map_congr_left (fun i _ => by rw [Nat.zero_add])
  · intro maxR s resp raK u b h0 hs hs429
    rw [fetch_events_page, fetch_events_page_loop, h0]
    dsimp only
    rw [if_neg (by omega : ¬(s = 429 ∧ 0 < maxR)), if_pos hs]
  · intro maxR k jitter resp hk hblock ra' u body hsucc
    have h := check_page_loop_blocked_run resp maxR jitter k 0 (maxR + 1)
      (by omega) (by omega)
      (fun i hi => by rw [Nat.zero_add]; exact hblock i hi)
      ra' u body (by rwa [Nat.zero_add]) none none
    rw [check_ticketmaster_page_availability, h]
    refine congrArg₂ _ rfl ?_
    rw [pageBackoffWaits]
    exact (List.map_congr_left (fun i _ => by rw [Nat.zero_add])).symm

/-- Witness for C7 (amended): one 429 with a numeric Retry-After of 5 then a
200 makes the catalog fetcher wait exactly 5 seconds and succeed with two
requests; one 403 then a 200 makes the page checker wait `2 ** 0 + jitter`
and return the parsed body. -/
theorem http_retry_amended_witness :
    fetch_events_page
        (fun i => if i = 0 then .resp 429 (some 5) "u" "" else .resp 200 none "u" "body")
        2 =
      { result := .ok "body", waits := backoff429Waits (fun _ => some 5) 1
        requests := 2 } ∧
    check_ticketmaster_page_availability
        (fun i => if i = 0 then .resp 403 (some 9) "u" "" else .resp 200 none "u" "body")
        2 (fun _ => 0) =
      (htmlResultOfBody 200 "u" "body", pageBackoffWaits (fun _ => 0) 1) :=
  ⟨http_retry_amended.1 2 1
      (fun i => if i = 0 then .resp 429 (some 5) "u" "" else .resp 200 none "u" "body")
      (fun _ => some 5) (fun _ => "u") (fun _ => "") 200 none "u" "body"
      (by omega)
      (fun i hi => by
        have hi0 : i = 0 := by omega
        subst hi0
        rfl)
      rfl (by omega),
    http_retry_amended.2.2 2 1 (fun _ => 0)
      (fun i => if i = 0 then .resp 403 (some 9) "u" "" else .resp 200 none "u" "body")
      (by omega)
      (fun i hi => by
        have hi0 : i = 0 := by omega
        subst hi0
        exact ⟨403, some 9, "u", "", rfl, Or.inl rfl⟩)
      none "u" "body" rfl⟩

/-- C9: for start < end and positive `step_days`, `build_windows` partitions
`[start, end]` into contiguous windows: the first starts at `start`, each
subsequent window starts where the previous ends, every window is non-empty
and at most `step_days` long (`86400 * step_days` seconds), only the last
may be shorter, and the last ends exactly at `end`; for `end <= start` no
windows are produced. -/
theorem build_windows_partitions (s e d : Int) (hd : 0 < d) :
    (e ≤ s → build_windows s e d = []) ∧
    (s < e →
      (build_windows s e d ≠ [] ∧
        (build_windows s e d).head?.map TMWindow.start = some s ∧
        (build_windows s e d).getLast?.map TMWindow.stop = some e ∧
        List.Chain' (fun a b => a.stop = b.start) (build_windows s e d) ∧
        (∀ w ∈ build_windows s e d,
          w.start < w.stop ∧ w.stop - w.start ≤ 86400 * d) ∧
        (∀ w ∈ (build_windows s e d).dropLast,
          w.stop - w.start = 86400 * d))) := by
  constructor
  · intro h
    rw [build_windows, if_pos h]
  · intro h
    have hb : build_windows s e d = build_windows_loop s e (86400 * d) := by
      rw [build_windows, if_neg (not_le.mpr h)]
    rw [hb]
    exact build_windows_loop_spec e (86400 * d) (by omega)
      (e - s).toNat s (le_refl _) h

/-- Witness for C9: a one-day horizon longer than zero, step one day. -/
theorem build_windows_partitions_witness :
    build_windows 0 100000 1 ≠ [] ∧
    (build_windows 0 100000 1).head?.map TMWindow.start = some 0 ∧
    (build_windows 0 100000 1).getLast?.map TMWindow.stop = some 100000 :=
  ⟨((build_windows_partitions 0 100000 1 (by decide)).2 (by decide)).1,
    ((build_windows_partitions 0 100000 1 (by decide)).2 (by decide)).2.1,
    ((build_windows_partitions 0 100000 1 (by decide)).2 (by decide)).2.2.1⟩

end Tixy
